import Mathlib

/-!
Shallow embedding of the researcher-identity reconciliation core of this
repository (ORCID matching, retry policy, partial-date formatting, PubMed
author reconstruction, and the permanent-database mapping store), together
with theorems settling the specification claims about it.

Source files embedded:
* `src/Forskardatabas/src/external_data/data_collector.py`
  (`retry`, `OrcidClient.search_researchers`, `OrcidClient.match_researcher`,
  `OrcidClient._format_date`, `PubMedCollector.search_articles` author loop,
  `PubMedCollector.to_dataframe`)
* `src/src/database/permanent_db.py`
  (`PermanentDatabase.register_orcid_mapping`, `get_orcid_mappings`)
* `src/Forskardatabas/src/main.py` (`match_researchers_with_orcid` row step)
-/

namespace ResearchLeads

/-! ## Python-style string helpers -/

/-- Does `hay` start with `needle` (character lists)? -/
def listStartsWith : List Char → List Char → Bool
  | _, [] => true
  | [], _ :: _ => false
  | c :: cs, d :: ds => c = d && listStartsWith cs ds

/-- Substring test on character lists: Python's `needle in hay`. -/
def listHasSub : List Char → List Char → Bool
  | [], needle => needle.isEmpty
  | c :: rest, needle => listStartsWith (c :: rest) needle || listHasSub rest needle

/-- Python's `needle in hay` for strings (substring containment). -/
def pyInStr (needle hay : String) : Bool :=
  listHasSub hay.data needle.data

/-- Python's `str.lower()` (character-wise, as the ASCII inputs of this
code base require). -/
def pyLower (s : String) : String :=
  String.mk (s.data.map Char.toLower)

/-- Splitting a character list on whitespace runs, accumulating the current
word in reverse. -/
def wordsAux : List Char → List Char → List (List Char)
  | [], cur => if cur = [] then [] else [cur.reverse]
  | c :: cs, cur =>
    if c.isWhitespace then
      if cur = [] then wordsAux cs [] else cur.reverse :: wordsAux cs []
    else wordsAux cs (c :: cur)

/-- Python's `str.split()` with no arguments: split on whitespace runs,
discarding empty pieces. -/
def pySplitWs (s : String) : List String :=
  (wordsAux s.data []).map String.mk

/-- Python's `sep.join(parts)`. -/
def pyJoin (sep : String) : List String → String
  | [] => ""
  | [x] => x
  | x :: y :: xs => x ++ sep ++ pyJoin sep (y :: xs)

/-- Python truthiness of an optional string (`None` and `""` are falsy). -/
def pyTruthyS (o : Option String) : Bool :=
  match o with
  | some s => s ≠ ""
  | none => false

/-- Python's `round(q, 2)` on exact rationals: round `q` to 2 decimal
places, ties to even (banker's rounding). -/
def pyRound2 (q : ℚ) : ℚ :=
  let x : ℚ := q * 100
  let n : ℤ := ⌊x⌋
  let f : ℚ := x - n
  let r : ℤ :=
    if f < 1 / 2 then n
    else if 1 / 2 < f then n + 1
    else if n % 2 = 0 then n else n + 1
  (r : ℚ) / 100

/-! ## Data model

A `Researcher` models the Python dict built by `OrcidClient`: an `Option`
field is `none` exactly when the corresponding key is absent from the dict. -/

structure Researcher where
  orcidId : Option String := none
  orcid : Option String := none
  name : Option String := none
  displayName : Option String := none
  institution : Option String := none
  givenName : Option String := none
  familyName : Option String := none
  keywords : Option (List String) := none
  matchConfidence : Option ℚ := none
  deriving DecidableEq, Repr

/-! ## Scoring (`OrcidClient.match_researcher`, multi-candidate branch,
data_collector.py lines 899-924) -/

/-- Name contribution: `+0.5` when the candidate's lower-cased full name is
non-empty and contains the lower-cased query name as a substring, and a
further `+0.3` on exact (case-insensitive) equality. -/
def nameScore (name : String) (r : Researcher) : ℚ :=
  let fullName := pyLower (r.name.getD "")
  if fullName = "" then 0
  else if pyInStr (pyLower name) fullName then
    (if pyLower name = fullName then 1 / 2 + 3 / 10 else 1 / 2)
  else 0

/-- Keyword contribution: `+0.1` for each query keyword whose lower-casing is
an element of the candidate's lower-cased keyword list; only when the query
keyword list is truthy and the candidate dict has a `keywords` key. -/
def keywordScore (kws : Option (List String)) (r : Researcher) : ℚ :=
  match kws, r.keywords with
  | some ks, some rks =>
    if ks = [] then 0
    else ks.foldl
      (fun acc k =>
        if (rks.map pyLower).contains (pyLower k) then acc + 1 / 10 else acc)
      0
  | _, _ => 0

/-- Institution contribution: the candidate's institution string is split on
whitespace, each token lower-cased, and `+0.2` is added for every token that
contains the lower-cased query institution as a substring (the source loop
has no break). -/
def institutionScore (inst : Option String) (r : Researcher) : ℚ :=
  match inst, r.institution with
  | some instQ, some rInst =>
    if instQ = "" then 0
    else ((pySplitWs rInst).map pyLower).foldl
      (fun acc a => if pyInStr (pyLower instQ) a then acc + 1 / 5 else acc)
      0
  | _, _ => 0

/-- Total additive score of one candidate in the multi-candidate branch. -/
def scoreResearcher (name : String) (kws : Option (List String))
    (inst : Option String) (r : Researcher) : ℚ :=
  nameScore name r + keywordScore kws r + institutionScore inst r

/-- `match_confidence` assigned to a candidate:
`round(min(confidence, 1.0), 2)` (data_collector.py line 924). -/
def assignConfidence (name : String) (kws : Option (List String))
    (inst : Option String) (r : Researcher) : ℚ :=
  pyRound2 (min (scoreResearcher name kws inst r) 1)

/-- The multi-candidate branch's first pass: store the computed confidence on
every candidate (data_collector.py lines 900-924). -/
def scoreAll (name : String) (kws : Option (List String))
    (inst : Option String) (rs : List Researcher) : List Researcher :=
  rs.map (fun r => { r with matchConfidence := some (assignConfidence name kws inst r) })

/-- `match_researcher`, as a function of the candidate list returned by
`search_researchers` (data_collector.py lines 892-936): empty list gives
`none` (NoMatch); more than one candidate is scored and stably sorted by
descending confidence; the head candidate receives the default confidence
`0.7` when it carries none, and is returned. -/
def match_from_results (name : String) (kws : Option (List String))
    (inst : Option String) (researchers : List Researcher) : Option Researcher :=
  match researchers with
  | [] => none
  | _ :: _ =>
    let ranked :=
      if researchers.length > 1 then
        (scoreAll name kws inst researchers).mergeSort
          (fun a b => decide ((b.matchConfidence.getD 0) ≤ (a.matchConfidence.getD 0)))
      else researchers
    match ranked with
    | [] => none
    | r :: _ =>
      some (if r.matchConfidence.isNone
            then { r with matchConfidence := some (7 / 10) } else r)

/-! ## `OrcidClient.search_researchers` (data_collector.py lines 799-873) -/

/-- One raw hit of the registry's search response: `orcid-identifier.path`,
`display-name` (defaulted to `""`), and the affiliation name extracted from
`affiliation-path` (resolved to `""` when absent or falsy). -/
structure SearchHit where
  orcidPath : Option String
  displayName : String
  instName : String
  deriving DecidableEq, Repr

/-- A hit is processed only when its ORCID path is truthy
(`if not orcid_id: continue`). -/
def hitValid (h : SearchHit) : Bool :=
  pyTruthyS h.orcidPath

def hitOrcid (h : SearchHit) : String :=
  h.orcidPath.getD ""

/-- The minimal researcher profile built for a hit when no per-hit detail
fetch is made (data_collector.py lines 829-858), including the given/family
split of the display name. -/
def mkStub (h : SearchHit) : Researcher :=
  let base : Researcher :=
    { orcidId := some (hitOrcid h), orcid := some (hitOrcid h),
      name := some h.displayName, displayName := some h.displayName,
      institution := some h.instName }
  if h.displayName = "" then base
  else
    let parts := pySplitWs h.displayName
    if parts.length > 1 then
      { base with givenName := some (parts.headD ""),
                  familyName := some (pyJoin " " (parts.drop 1)) }
    else
      { base with givenName := some h.displayName, familyName := some "" }

/-- The per-hit loop of `search_researchers`, parameterized by the profile
fetcher `fetch` (modelling `get_researcher_info`, which returns `None` on
failure). Returns the result list together with the number of `fetch`
invocations. The stub-versus-fetch branch tests `max_results > 5`
(data_collector.py line 829). -/
def search_researchers_loop (maxResults : Nat) (fetch : String → Option Researcher) :
    List SearchHit → List Researcher × Nat
  | [] => ([], 0)
  | h :: rest =>
    let tail := search_researchers_loop maxResults fetch rest
    if hitValid h then
      if maxResults > 5 then
        (mkStub h :: tail.1, tail.2)
      else
        match fetch (hitOrcid h) with
        | some r =>
          ({ r with orcidId := some (hitOrcid h), orcid := some (hitOrcid h) } :: tail.1,
           tail.2 + 1)
        | none => (tail.1, tail.2 + 1)
    else tail

/-- `search_researchers` as a function of the upstream response: its
`except` clause (data_collector.py lines 871-873) turns any hard failure
into the empty result list. -/
def search_researchers_run (maxResults : Nat) (fetch : String → Option Researcher)
    (upstream : Except String (List SearchHit)) : List Researcher :=
  match upstream with
  | .ok hits => (search_researchers_loop maxResults fetch hits).1
  | .error _ => []

/-- `match_researcher` as seen by a caller when the registry search hits the
given upstream outcome: the engine consumes whatever list
`search_researchers` produced (it is called with `max_results=5`, so the
fetch-enriched path applies). -/
def match_researcher_run (name : String) (kws : Option (List String))
    (inst : Option String) (fetch : String → Option Researcher)
    (upstream : Except String (List SearchHit)) : Option Researcher :=
  match_from_results name kws inst (search_researchers_run 5 fetch upstream)

/-! ## Retry decorator (data_collector.py lines 18-44) -/

/-- The `while mtries > 0` loop of the `retry` wrapper. `f k` is the outcome
of the `k`-th invocation of the wrapped function. Returns the final outcome,
the number of invocations, and the list of sleep durations in order. On a
failure the wrapper sleeps `mdelay`, decrements `mtries`, multiplies `mdelay`
by `backoff`, and re-raises once `mtries` reaches 0. -/
def retryAux (f : Nat → Except String α) (callIdx : Nat) :
    Nat → Nat → Nat → List Nat → Except String α × Nat × List Nat
  | 0, _, _, delays =>
    -- the loop was never entered (`tries = 0`): line 42 calls once, uncaught
    (f callIdx, callIdx + 1, delays)
  | m + 1, mdelay, backoff, delays =>
    match f callIdx with
    | .ok a => (.ok a, callIdx + 1, delays)
    | .error e =>
      let delays' := delays ++ [mdelay]
      if m = 0 then (.error e, callIdx + 1, delays')
      else retryAux f (callIdx + 1) m (mdelay * backoff) backoff delays'

/-- Run the retry wrapper with the given `tries`, initial `delay` and
`backoff` factor. -/
def retry_run (tries delay backoff : Nat) (f : Nat → Except String α) :
    Except String α × Nat × List Nat :=
  retryAux f 0 tries delay backoff []

/-! ## `OrcidClient._format_date` (data_collector.py lines 774-797) -/

/-- The `year`/`month`/`day` component values of an ORCID date object; a
field is `none` when the component (or its `value`) is missing. -/
structure DateParts where
  year : Option String
  month : Option String
  day : Option String
  deriving DecidableEq, Repr

/-- `_format_date`: `none` input models a falsy `date_obj` (`None` or `{}`).
A truthy year is mandatory; the day is used only when the month is also
truthy. -/
def format_date (d : Option DateParts) : Option String :=
  match d with
  | none => none
  | some pd =>
    if pyTruthyS pd.year then
      let y := pd.year.getD ""
      if pyTruthyS pd.month then
        let m := pd.month.getD ""
        if pyTruthyS pd.day then some (y ++ "-" ++ m ++ "-" ++ pd.day.getD "")
        else some (y ++ "-" ++ m)
      else some y
    else none

/-! ## PubMed author reconstruction
(`PubMedCollector.search_articles` lines 143-159, `to_dataframe` lines 206-213) -/

/-- The `LastName` / `ForeName` children of one `Author` element; `none`
models an absent element. -/
structure AuthorXml where
  lastName : Option String
  foreName : Option String
  deriving DecidableEq, Repr

/-- One author's name: the source appends `LastName` first, then `ForeName`,
and joins with a single space; an author with neither part is skipped. -/
def authorName (a : AuthorXml) : Option String :=
  let parts :=
    (match a.lastName with | some s => [s] | none => []) ++
    (match a.foreName with | some s => [s] | none => [])
  match parts with
  | [] => none
  | _ :: _ => some (pyJoin " " parts)

/-- The article's `authors` list. -/
def buildAuthors (l : List AuthorXml) : List String :=
  l.filterMap authorName

/-- `to_dataframe` flattening: `", ".join(article['authors'])`. -/
def authors_str (authors : List String) : String :=
  pyJoin ", " authors

/-! ## Permanent database (permanent_db.py) -/

/-- One row of the `orcid_mappings` table (schema lines 57-67: no UNIQUE
constraint on any column combination). `matchDate` models the
`CURRENT_TIMESTAMP` default as a logical clock. -/
structure OrcidMapping where
  datasetId : Nat
  recordId : String
  orcid : String
  matchConfidence : ℚ
  matchDate : Nat
  deriving DecidableEq, Repr

/-- The permanent database state relevant to ORCID mappings: the table rows
(in rowid order), the set of datasets flagged `orcid_linked`, and the
logical clock. -/
structure PermDB where
  mappings : List OrcidMapping
  orcidLinked : List Nat
  now : Nat
  deriving DecidableEq, Repr

def emptyDB : PermDB := ⟨[], [], 0⟩

/-- `register_orcid_mapping` (permanent_db.py lines 114-131): a plain
`INSERT` appending one row, then flagging the dataset `orcid_linked`. -/
def register_orcid_mapping (db : PermDB) (datasetId : Nat)
    (recordId orcid : String) (confidence : ℚ) : PermDB :=
  { mappings := db.mappings ++ [⟨datasetId, recordId, orcid, confidence, db.now⟩],
    orcidLinked :=
      if db.orcidLinked.contains datasetId then db.orcidLinked
      else db.orcidLinked ++ [datasetId],
    now := db.now + 1 }

/-- `get_orcid_mappings` (permanent_db.py lines 133-152): filter by
dataset id and/or ORCID; with neither filter, all rows ordered by
descending match date. -/
def get_orcid_mappings (db : PermDB) (datasetId : Option Nat)
    (orcid : Option String) : List OrcidMapping :=
  match datasetId, orcid with
  | some d, some o => db.mappings.filter (fun m => m.datasetId == d && m.orcid == o)
  | some d, none => db.mappings.filter (fun m => m.datasetId == d)
  | none, some o => db.mappings.filter (fun m => m.orcid == o)
  | none, none =>
    db.mappings.mergeSort (fun a b => decide (b.matchDate ≤ a.matchDate))

/-! ## Caller row step (`match_researchers_with_orcid`, main.py lines 130-147) -/

/-- What the batch loop does with one row's match result: a persistence
write happens only when a researcher was returned and carries a truthy
`orcid`; the stored confidence defaults to `0.5`. -/
def process_row (db : PermDB) (datasetId : Nat) (recordId : String)
    (res : Option Researcher) : PermDB :=
  match res with
  | none => db
  | some r =>
    if pyTruthyS r.orcid then
      register_orcid_mapping db datasetId recordId (r.orcid.getD "")
        (r.matchConfidence.getD (1 / 2))
    else db

/-! ## General lemmas -/

/-- A fold that conditionally adds a non-negative constant never decreases
its accumulator. -/
theorem foldl_if_le {α : Type _} (p : α → Bool) (k : ℚ) (hk : 0 ≤ k) :
    ∀ (l : List α) (acc : ℚ), acc ≤ l.foldl (fun a x => if p x then a + k else a) acc
  | [], _ => le_refl _
  | x :: xs, acc => by
    simp only [List.foldl_cons]
    by_cases h : p x
    · simp only [h, if_true]
      calc acc ≤ acc + k := by linarith
        _ ≤ _ := foldl_if_le p k hk xs (acc + k)
    · simp only [h, if_false, Bool.false_eq_true]
      exact foldl_if_le p k hk xs acc

/-- A fold that adds `k` for every element satisfying `p` adds
`k` times the number of such elements. -/
theorem foldl_if_count {α : Type _} (p : α → Bool) (k : ℚ) :
    ∀ (l : List α) (acc : ℚ),
      l.foldl (fun a x => if p x then a + k else a) acc
        = acc + ((l.filter p).length : ℚ) * k
  | [], acc => by simp
  | x :: xs, acc => by
    simp only [List.foldl_cons, List.filter_cons]
    by_cases h : p x
    · simp only [h, if_true, foldl_if_count p k xs, List.length_cons]
      push_cast
      ring
    · simp only [h, if_false, Bool.false_eq_true, foldl_if_count p k xs]

theorem nameScore_nonneg (name : String) (r : Researcher) : 0 ≤ nameScore name r := by
  simp only [nameScore]
  split_ifs <;> norm_num

theorem keywordScore_nonneg (kws : Option (List String)) (r : Researcher) :
    0 ≤ keywordScore kws r := by
  unfold keywordScore
  rcases kws with _ | ks
  · simp
  · cases hk : r.keywords with
    | none => simp
    | some rks =>
      dsimp only
      split_ifs
      · exact le_refl 0
      · exact foldl_if_le _ _ (by norm_num) ks 0

theorem institutionScore_nonneg (inst : Option String) (r : Researcher) :
    0 ≤ institutionScore inst r := by
  unfold institutionScore
  rcases inst with _ | instQ
  · simp
  · cases hi : r.institution with
    | none => simp
    | some rInst =>
      dsimp only
      split_ifs
      · exact le_refl 0
      · exact foldl_if_le _ _ (by norm_num) _ 0

theorem scoreResearcher_nonneg (name : String) (kws : Option (List String))
    (inst : Option String) (r : Researcher) : 0 ≤ scoreResearcher name kws inst r :=
  add_nonneg (add_nonneg (nameScore_nonneg name r) (keywordScore_nonneg kws r))
    (institutionScore_nonneg inst r)

theorem pyRound2_nonneg {q : ℚ} (h : 0 ≤ q) : 0 ≤ pyRound2 q := by
  have hx : (0 : ℚ) ≤ q * 100 := by positivity
  have hn : (0 : ℤ) ≤ ⌊q * 100⌋ := Int.floor_nonneg.mpr hx
  have hn1 : (0 : ℤ) ≤ ⌊q * 100⌋ + 1 := by omega
  simp only [pyRound2]
  split_ifs
  · exact div_nonneg (by exact_mod_cast hn) (by norm_num)
  · exact div_nonneg (by exact_mod_cast hn1) (by norm_num)
  · exact div_nonneg (by exact_mod_cast hn) (by norm_num)
  · exact div_nonneg (by exact_mod_cast hn1) (by norm_num)

theorem pyRound2_le_one {q : ℚ} (h : q ≤ 1) : pyRound2 q ≤ 1 := by
  have hx : q * 100 ≤ 100 := by linarith
  have hn : ⌊q * 100⌋ ≤ 100 := by
    calc ⌊q * 100⌋ ≤ ⌊(100 : ℚ)⌋ := Int.floor_mono hx
      _ = 100 := by norm_num
  have hfl : (⌊q * 100⌋ : ℚ) ≤ q * 100 := Int.floor_le _
  simp only [pyRound2]
  split_ifs with h1 h2 h3
  · rw [div_le_one (by norm_num)]
    exact_mod_cast hn
  · have h99 : ⌊q * 100⌋ ≤ 99 := by
      have ha : (⌊q * 100⌋ : ℚ) < ((100 : ℤ) : ℚ) := by push_cast; linarith
      have hb : ⌊q * 100⌋ < (100 : ℤ) := by exact_mod_cast ha
      omega
    rw [div_le_one (by norm_num)]
    exact_mod_cast by omega
  · have heq : q * 100 - (⌊q * 100⌋ : ℚ) = 1 / 2 := le_antisymm (not_lt.mp h2) (not_lt.mp h1)
    rw [div_le_one (by norm_num)]
    exact_mod_cast hn
  · have heq : q * 100 - (⌊q * 100⌋ : ℚ) = 1 / 2 := le_antisymm (not_lt.mp h2) (not_lt.mp h1)
    have h99 : ⌊q * 100⌋ ≤ 99 := by
      have ha : (⌊q * 100⌋ : ℚ) < ((100 : ℤ) : ℚ) := by push_cast; linarith
      have hb : ⌊q * 100⌋ < (100 : ℤ) := by exact_mod_cast ha
      omega
    rw [div_le_one (by norm_num)]
    exact_mod_cast by omega

/-! ## Claim theorems -/

/-- C1 (counterexample): at the concrete upstream outcome `error "network
error"`, the engine's match returns `none` (NoMatch) instead of propagating
the failure, and its result is identical to the one for a well-formed
zero-hit response — the caller cannot distinguish "no identity found" from
"could not search". -/
theorem match_masks_adapter_failure_cex :
    match_researcher_run "Jane Doe" none none (fun _ => none) (.error "network error") = none
      ∧ match_researcher_run "Jane Doe" none none (fun _ => none) (.error "network error")
        = match_researcher_run "Jane Doe" none none (fun _ => none) (.ok []) :=
  ⟨rfl, rfl⟩

/-- C1 (amended): for every identity reference and every hard adapter
failure, `search_researchers` catches the exception and returns the empty
list, so the engine's match returns NoMatch — indistinguishable from a
zero-hit search; the failure is never propagated to the caller. -/
theorem match_masks_adapter_failure (name : String) (kws : Option (List String))
    (inst : Option String) (fetch : String → Option Researcher) (e : String) :
    match_researcher_run name kws inst fetch (.error e) = none
      ∧ match_researcher_run name kws inst fetch (.error e)
        = match_researcher_run name kws inst fetch (.ok []) :=
  ⟨rfl, rfl⟩

/-- C2 (counterexample): registering the mapping (dataset 1, record "X",
ORCID "C") twice — first with confidence 1/2, then 9/10 — and querying the
mappings of dataset 1 yields two rows whose record id is "X", not one. -/
theorem register_mapping_duplicates_cex :
    ((get_orcid_mappings
        (register_orcid_mapping
          (register_orcid_mapping emptyDB 1 "X" "C" (1 / 2)) 1 "X" "C" (9 / 10))
        (some 1) none).filter (fun m => m.recordId == "X")).length = 2 :=
  rfl

/-- C2 (amended): `register_orcid_mapping` is a plain insert: writing
(X, C, c1) and then (X, C, c2) into an empty store and querying the dataset's
mappings returns two rows for X, the first carrying c1 and the second c2 —
re-matching the same local record appends a duplicate row instead of
updating it. -/
theorem register_mapping_appends (ds : Nat) (x c : String) (c1 c2 : ℚ) :
    (get_orcid_mappings
        (register_orcid_mapping
          (register_orcid_mapping emptyDB ds x c c1) ds x c c2)
        (some ds) none).filter (fun m => m.recordId == x)
      = [⟨ds, x, c, c1, 0⟩, ⟨ds, x, c, c2, 1⟩] := by
  simp [get_orcid_mappings, register_orcid_mapping, emptyDB]

/-- C3 (counterexample): with query institution "mit" and candidate
institution "mit mit", the multi-candidate scoring adds 0.2 twice (total
score 2/5), not the flat 0.2 the claim states. -/
theorem institution_bonus_per_token_cex :
    scoreResearcher "a" none (some "mit")
        { name := some "zzz", institution := some "mit mit" } = 2 / 5
      ∧ scoreResearcher "a" none (some "mit")
        { name := some "zzz", institution := some "mit mit" } ≠ 1 / 5 := by
  have h : scoreResearcher "a" none (some "mit")
      { name := some "zzz", institution := some "mit mit" } = 2 / 5 := by
    simp only [scoreResearcher, nameScore, keywordScore, institutionScore]
    norm_num [foldl_if_count]
    rw [if_neg (by decide), if_neg (by decide), if_neg (by decide)]
    have h2 : (List.filter (pyInStr (pyLower "mit"))
        (List.map pyLower (pySplitWs "mit mit"))).length = 2 := by decide
    rw [h2]
    norm_num
  exact ⟨h, by rw [h]; norm_num⟩

/-- C3 (amended): for every query with a truthy institution string, the
institution contribution to a candidate's score is 0.2 per whitespace token
of the candidate's lower-cased institution that contains the lower-cased
query institution — 0.2 times the number of matching tokens, not a flat 0.2
once per candidate. -/
theorem institution_bonus_per_token (name : String) (kws : Option (List String))
    (instQ rInst : String) (r : Researcher)
    (hri : r.institution = some rInst) (hq : instQ ≠ "") :
    scoreResearcher name kws (some instQ) r
      = scoreResearcher name kws none r
        + ((((pySplitWs rInst).map pyLower).filter (pyInStr (pyLower instQ))).length : ℚ)
          * (1 / 5) := by
  unfold scoreResearcher institutionScore
  rw [hri]
  simp only [foldl_if_count, if_neg hq]
  ring

/-- C3 (witness). -/
theorem institution_bonus_per_token_witness :
    scoreResearcher "a" none (some "mit")
        { name := some "zzz", institution := some "mit mit" }
      = scoreResearcher "a" none none
          { name := some "zzz", institution := some "mit mit" }
        + ((((pySplitWs "mit mit").map pyLower).filter (pyInStr (pyLower "mit"))).length : ℚ)
          * (1 / 5) :=
  institution_bonus_per_token "a" none "mit" "mit mit"
    { name := some "zzz", institution := some "mit mit" } rfl (by decide)

/-- C4 (counterexample): with `max_results = 10` the registry returns only
2 hits — a result set of at most 5 — yet the code performs zero
single-entity fetches and returns stubs, because its branch tests the
requested `max_results`, not the result-set size. -/
theorem search_threshold_cex :
    ([⟨some "0000-0001-0000-0001", "A B", ""⟩,
      ⟨some "0000-0001-0000-0002", "C D", ""⟩] : List SearchHit).length ≤ 5
      ∧ (search_researchers_loop 10 (fun _ => none)
          [⟨some "0000-0001-0000-0001", "A B", ""⟩,
           ⟨some "0000-0001-0000-0002", "C D", ""⟩]).2 = 0
      ∧ (search_researchers_loop 10 (fun _ => none)
          [⟨some "0000-0001-0000-0001", "A B", ""⟩,
           ⟨some "0000-0001-0000-0002", "C D", ""⟩]).1
        = [mkStub ⟨some "0000-0001-0000-0001", "A B", ""⟩,
           mkStub ⟨some "0000-0001-0000-0002", "C D", ""⟩] :=
  ⟨by decide, rfl, rfl⟩

/-- C4 (amended): the stub-versus-enrich decision is governed by the
requested `max_results`, not by the size of the returned result set: when
`max_results > 5` every valid hit becomes a summary stub and the
single-entity fetch is never called; when `max_results ≤ 5` the fetch is
called exactly once per valid hit and the successful fetches are returned
enriched. -/
theorem search_threshold (mr : Nat) (fetch : String → Option Researcher) :
    ∀ hits : List SearchHit,
      search_researchers_loop mr fetch hits =
        (if mr > 5
          then ((hits.filter hitValid).map mkStub, 0)
          else ((hits.filter hitValid).filterMap
              (fun h => (fetch (hitOrcid h)).map
                (fun r => { r with orcidId := some (hitOrcid h),
                                   orcid := some (hitOrcid h) })),
            (hits.filter hitValid).length))
  | [] => by
    simp [search_researchers_loop]
  | h :: hits => by
    simp only [search_researchers_loop, search_threshold mr fetch hits, List.filter_cons]
    by_cases hv : hitValid h
    · simp only [hv, if_true]
      by_cases hmr : mr > 5
      · simp [hmr]
      · simp only [hmr, if_false, Bool.false_eq_true]
        cases hf : fetch (hitOrcid h) <;>
          simp [hf, List.filterMap_cons]
    · simp [hv]

/-- C5: for every identity reference whose registry search yields exactly
one candidate (which, coming from the registry, carries no
`match_confidence` yet), `match_researcher` returns that candidate with
confidence exactly 0.70, whatever its name, keywords or institution. -/
theorem single_candidate_confidence (name : String) (kws : Option (List String))
    (inst : Option String) (r : Researcher) (h : r.matchConfidence = none) :
    match_from_results name kws inst [r]
      = some { r with matchConfidence := some (7 / 10) } := by
  simp [match_from_results, h]

/-- C5 (witness). -/
theorem single_candidate_confidence_witness :
    match_from_results "Jane Doe" none none [{ name := some "Jane Doe" }]
      = some { name := some "Jane Doe", matchConfidence := some (7 / 10) } :=
  single_candidate_confidence "Jane Doe" none none { name := some "Jane Doe" } rfl

/-- C6: for every identity reference with zero registry hits,
`match_researcher` returns NoMatch (`none`), and the batch caller performs
no persistence write for that row — the database is unchanged. -/
theorem zero_hits_no_write (name : String) (kws : Option (List String))
    (inst : Option String) (db : PermDB) (datasetId : Nat) (recordId : String) :
    match_from_results name kws inst [] = none
      ∧ process_row db datasetId recordId (match_from_results name kws inst []) = db :=
  ⟨rfl, rfl⟩

/-- C7: every candidate scored by the multi-candidate pass carries a
confidence equal to the non-negative additive score capped at 1.0 and then
rounded to 2 decimal places, and that confidence always lies in
[0.0, 1.0]. -/
theorem confidence_clamped (name : String) (kws : Option (List String))
    (inst : Option String) (rs : List Researcher) (r : Researcher)
    (hr : r ∈ scoreAll name kws inst rs) :
    ∃ c : ℚ, r.matchConfidence = some c
      ∧ c = pyRound2 (min (scoreResearcher name kws inst r) 1)
      ∧ 0 ≤ scoreResearcher name kws inst r
      ∧ 0 ≤ c ∧ c ≤ 1 := by
  rcases List.mem_map.mp hr with ⟨r0, _, rfl⟩
  have hs0 : 0 ≤ scoreResearcher name kws inst r0 :=
    scoreResearcher_nonneg name kws inst r0
  have hsu : scoreResearcher name kws inst
      { r0 with matchConfidence := some (assignConfidence name kws inst r0) }
      = scoreResearcher name kws inst r0 := rfl
  refine ⟨assignConfidence name kws inst r0, rfl, ?_, ?_, ?_, ?_⟩
  · rw [hsu]; rfl
  · rw [hsu]; exact hs0
  · exact pyRound2_nonneg (le_min hs0 zero_le_one)
  · exact pyRound2_le_one (min_le_right _ _)

/-- The candidate of the C7 witness: exact name match (+0.8), three keyword
matches (+0.3) and one institution token match (+0.2) sum to 1.3 before the
cap. -/
def annLee : Researcher :=
  { name := some "Ann Lee", keywords := some ["A", "B", "C"],
    institution := some "MIT" }

/-- The C7 witness candidate after the scoring pass. -/
def annLeeScored : Researcher :=
  { annLee with
    matchConfidence := some
      (assignConfidence "ann lee" (some ["a", "b", "c"]) (some "mit") annLee) }

/-- C7 (witness): in a two-candidate run containing `annLee`, whose raw
score is 1.3, the assigned confidence still lies in [0, 1]. -/
theorem confidence_clamped_witness :
    ∃ c : ℚ, annLeeScored.matchConfidence = some c
      ∧ c = pyRound2 (min (scoreResearcher "ann lee" (some ["a", "b", "c"])
          (some "mit") annLeeScored) 1)
      ∧ 0 ≤ scoreResearcher "ann lee" (some ["a", "b", "c"]) (some "mit") annLeeScored
      ∧ 0 ≤ c ∧ c ≤ 1 :=
  confidence_clamped "ann lee" (some ["a", "b", "c"]) (some "mit")
    [annLee, { name := some "Jon Smith" }] annLeeScored
    (by
      unfold annLeeScored scoreAll
      exact List.mem_map_of_mem _ (List.mem_cons_self _ _))

/-- A concatenation whose left part is a non-empty string is non-empty. -/
theorem append_ne_empty_left (a b : String) (ha : a ≠ "") : a ++ b ≠ "" := by
  intro hc
  apply ha
  have hd := congrArg String.data hc
  rw [String.data_append] at hd
  rcases List.append_eq_nil.mp hd with ⟨h1, _⟩
  cases a
  simp only at h1
  simp [h1]

/-- C8: `_format_date` maps year-only to `"YYYY"`, year+month to `"YYYY-M"`,
year+month+day to `"YYYY-M-D"`, and a falsy or year-less date object to
absent (`none`), never an empty string; the day component influences the
output only when the month is also present. -/
theorem format_date_spec :
    format_date (some ⟨some "2020", none, none⟩) = some "2020"
      ∧ format_date (some ⟨some "2020", some "5", none⟩) = some "2020-5"
      ∧ format_date (some ⟨some "2020", some "5", some "1"⟩) = some "2020-5-1"
      ∧ format_date none = none
      ∧ format_date (some ⟨none, none, none⟩) = none
      ∧ (∀ (d : Option DateParts) (s : String), format_date d = some s → s ≠ "")
      ∧ (∀ pd : DateParts, pyTruthyS pd.month = false →
          format_date (some pd) = format_date (some ⟨pd.year, pd.month, none⟩)) := by
  refine ⟨rfl, rfl, rfl, rfl, rfl, ?_, ?_⟩
  · intro d s hds
    rcases d with _ | pd
    · simp [format_date] at hds
    · rcases pd with ⟨y, m, dd⟩
      simp only [format_date] at hds
      split_ifs at hds with hy hm hd
      · rcases y with _ | ys
        · simp [pyTruthyS] at hy
        · simp only [pyTruthyS, ne_eq, decide_eq_true_eq] at hy
          simp only [Option.getD_some, Option.some.injEq] at hds
          subst hds
          exact append_ne_empty_left _ _ (append_ne_empty_left _ _
            (append_ne_empty_left _ _ (append_ne_empty_left _ _ hy)))
      · rcases y with _ | ys
        · simp [pyTruthyS] at hy
        · simp only [pyTruthyS, ne_eq, decide_eq_true_eq] at hy
          simp only [Option.getD_some, Option.some.injEq] at hds
          subst hds
          exact append_ne_empty_left _ _ (append_ne_empty_left _ _ hy)
      · rcases y with _ | ys
        · simp [pyTruthyS] at hy
        · simp only [pyTruthyS, ne_eq, decide_eq_true_eq] at hy
          simp only [Option.getD_some, Option.some.injEq] at hds
          subst hds
          exact hy
  · intro pd hm
    rcases pd with ⟨y, m, dd⟩
    simp only at hm
    simp [format_date, hm]

/-- C8 (witness). -/
theorem format_date_spec_witness :
    ("2020" : String) ≠ ""
      ∧ format_date (some ⟨some "7", none, some "9"⟩)
        = format_date (some ⟨some "7", none, none⟩) :=
  ⟨format_date_spec.2.2.2.2.2.1 (some ⟨some "2020", none, none⟩) "2020"
      format_date_spec.1,
   format_date_spec.2.2.2.2.2.2 ⟨some "7", none, some "9"⟩ rfl⟩

/-- C9: a retry wrapper configured for 3 tries whose wrapped operation
fails on every attempt invokes the operation exactly 3 times, sleeps the
delays `d`, `d*b`, `d*b*b` (the delay is multiplied by the backoff factor
after each failure), and re-raises the final error to the caller. -/
theorem retry_exhaustion (α : Type _) (errs : Nat → String) (d b : Nat) :
    retry_run 3 d b (fun k => (Except.error (errs k) : Except String α))
      = (Except.error (errs 2), 3, [d, d * b, d * b * b]) :=
  rfl

/-- C10 (counterexample): for the author element with `LastName` "Smith"
and `ForeName` "John", the code reconstructs "Smith John"
(family-name first), not "John Smith" as the claim states. -/
theorem author_order_cex :
    authorName ⟨some "Smith", some "John"⟩ = some "Smith John"
      ∧ authorName ⟨some "Smith", some "John"⟩ ≠ some "John Smith" :=
  ⟨rfl, by decide⟩

/-- C10 (amended): every author with both name parts present is
reconstructed as "family-name given-name" joined by a single space, and the
flattened author field joins the entries with ", ". -/
theorem author_reconstruction (ps : List (String × String)) :
    authors_str (buildAuthors (ps.map (fun p => ⟨some p.1, some p.2⟩)))
      = pyJoin ", " (ps.map (fun p => p.1 ++ " " ++ p.2)) := by
  have h : buildAuthors (ps.map (fun p => (⟨some p.1, some p.2⟩ : AuthorXml)))
      = ps.map (fun p => p.1 ++ " " ++ p.2) := by
    induction ps with
    | nil => rfl
    | cons p ps ih =>
      simp only [List.map_cons, buildAuthors, List.filterMap_cons] at ih ⊢
      rw [ih]
      rfl
  rw [authors_str, h]

end ResearchLeads
